import Mathlib

/-
Verification development for the tree-bark texture generator.

The TypeScript sources are shallowly embedded over the rationals.  The
underlying p5 coherent-noise sampler is modelled as an abstract function of
the current noise seed and the two sample coordinates; the JavaScript calls
Math.cos, Math.sin and the euclidean square root are likewise abstracted as
function parameters, since their values are irrational in general.  All other
arithmetic of the source is reproduced exactly over the rationals.
-/

namespace Trees

/-- Truncation toward zero, as used by the JavaScript remainder operator. -/
def jsTrunc (q : ℚ) : ℤ :=
if q < 0 then -⌊-q⌋ else ⌊q⌋

/-- The JavaScript remainder operator a % b (truncated division remainder). -/
def jsMod (a b : ℚ) : ℚ :=
a - b * (jsTrunc (a / b) : ℤ)

/-- The JavaScript Math.round on a rational: floor of the value plus one half. -/
def jsRound (a : ℚ) : ℤ :=
⌊a + 1/2⌋

/-- Clamp a value into the unit interval. -/
def clamp01 (v : ℚ) : ℚ :=
max 0 (min 1 v)

/-- NoiseParams from src/types: scale, octaves, lacunarity, persistence, seed. -/
structure NoiseParams where
  scale : ℚ
  octaves : ℕ
  lacunarity : ℚ
  persistence : ℚ
  seed : ℕ
deriving Repr, DecidableEq

/-- WarpParams from src/types: strength, iterations, scale. -/
structure WarpParams where
  strength : ℚ
  iterations : ℕ
  scale : ℚ
deriving Repr, DecidableEq

/-- The distance-function selector of VoronoiParams. -/
inductive DistanceFunction where
  | euclidean
  | manhattan
  | chebyshev
deriving Repr, DecidableEq

/-- VoronoiParams from src/types. -/
structure VoronoiParams where
  cellDensity : ℚ
  distanceFunction : DistanceFunction
  edgeWidth : ℚ
  jitter : ℚ
deriving Repr, DecidableEq

/-- DirectionalParams from src/types. -/
structure DirectionalParams where
  verticalBias : ℚ
  horizontalBias : ℚ
  angle : ℚ
deriving Repr, DecidableEq

/-- HSB color triple: hue, saturation, brightness. -/
def HSBColor : Type := ℚ × ℚ × ℚ

instance : DecidableEq HSBColor := by
unfold HSBColor
infer_instance

/-- ColorPalette from src/types. -/
structure ColorPalette where
  baseColor : HSBColor
  shadowColor : HSBColor
  highlightColor : HSBColor
  colorVariation : ℚ
deriving DecidableEq

/-- BarkParams from src/types. -/
structure BarkParams where
  species : String
  noise : NoiseParams
  warp : WarpParams
  voronoi : VoronoiParams
  direction : DirectionalParams
  colors : ColorPalette
  ridgeIntensity : ℚ
  contrast : ℚ
deriving DecidableEq

/-- The running state of the octave loop shared by fbm, ridgedNoise and
turbulence in src/src/algorithms/noise.ts: the accumulated value, the current
amplitude and frequency, and the accumulated weight sum maxValue. -/
structure FractalState where
  value : ℚ
  amplitude : ℚ
  frequency : ℚ
  maxValue : ℚ
deriving Repr, DecidableEq

/-- Initial state of the octave loop: value 0, amplitude 1, frequency equal to
the configured scale, maxValue 0. -/
def fractalInit (p : NoiseParams) : FractalState :=
⟨0, 1, p.scale, 0⟩

/-- One iteration of the octave loop.  The parameter g is the per-octave
transform applied to the raw noise sample: the identity for fbm, the squared
inverted tent for ridgedNoise, the absolute tent for turbulence. -/
def fractalStep (g : ℚ → ℚ) (η : ℕ → ℚ → ℚ → ℚ) (seed : ℕ) (x y : ℚ)
    (p : NoiseParams) (s : FractalState) : FractalState :=
{ value := s.value + s.amplitude * g (η seed (x * s.frequency) (y * s.frequency))
  amplitude := s.amplitude * p.persistence
  frequency := s.frequency * p.lacunarity
  maxValue := s.maxValue + s.amplitude }

/-- State of the octave loop after n iterations. -/
def fractalIter (g : ℚ → ℚ) (η : ℕ → ℚ → ℚ → ℚ) (seed : ℕ) (x y : ℚ)
    (p : NoiseParams) : ℕ → FractalState
  | 0 => fractalInit p
  | n + 1 => fractalStep g η seed x y p (fractalIter g η seed x y p n)

/-- Final result of the octave loop: the accumulated value divided by the
accumulated weight sum.  With octaves equal to zero both are 0 and the
JavaScript source divides 0 by 0, producing NaN; over the rationals the
division-by-zero convention returns 0. -/
def fractalSum (g : ℚ → ℚ) (η : ℕ → ℚ → ℚ → ℚ) (seed : ℕ) (x y : ℚ)
    (p : NoiseParams) : ℚ :=
(fractalIter g η seed x y p p.octaves).value /
  (fractalIter g η seed x y p p.octaves).maxValue

/-- fbm from src/src/algorithms/noise.ts lines 19-38. -/
def fbm (η : ℕ → ℚ → ℚ → ℚ) (seed : ℕ) (x y : ℚ) (p : NoiseParams) : ℚ :=
fractalSum (fun n => n) η seed x y p

/-- The per-octave transform of ridgedNoise: center, absolute value, invert,
then square (noise.ts lines 64-68). -/
def ridgeTransform (n : ℚ) : ℚ :=
(1 - |n * 2 - 1|) * (1 - |n * 2 - 1|)

/-- ridgedNoise from src/src/algorithms/noise.ts lines 51-75. -/
def ridgedNoise (η : ℕ → ℚ → ℚ → ℚ) (seed : ℕ) (x y : ℚ) (p : NoiseParams) : ℚ :=
fractalSum ridgeTransform η seed x y p

/-- turbulence from src/src/algorithms/noise.ts lines 126-146 (billowedNoise
at lines 158-178 is byte-for-byte the same computation). -/
def turbulence (η : ℕ → ℚ → ℚ → ℚ) (seed : ℕ) (x y : ℚ) (p : NoiseParams) : ℚ :=
fractalSum (fun n => |n * 2 - 1|) η seed x y p

/-- The iteration of domainWarp (noise.ts lines 98-110): each pass samples fbm
at the current warped point and at a fixed (5.2, 1.3) offset, and re-centers
on the original point plus the scaled displacement. -/
def domainWarpIter (η : ℕ → ℚ → ℚ → ℚ) (seed : ℕ) (x y : ℚ) (w : WarpParams)
    (np : NoiseParams) : ℕ → ℚ × ℚ
  | 0 => (x, y)
  | n + 1 =>
    let prev := domainWarpIter η seed x y w np n
    let offsetX := fbm η seed prev.1 prev.2 { np with scale := w.scale }
    let offsetY := fbm η seed (prev.1 + 26/5) (prev.2 + 13/10) { np with scale := w.scale }
    (x + w.strength * (offsetX * 2 - 1), y + w.strength * (offsetY * 2 - 1))

/-- domainWarp from src/src/algorithms/noise.ts lines 88-113. -/
def domainWarp (η : ℕ → ℚ → ℚ → ℚ) (seed : ℕ) (x y : ℚ) (w : WarpParams)
    (np : NoiseParams) : ℚ × ℚ :=
domainWarpIter η seed x y w np w.iterations

/-- applyDirectionalBias from src/src/algorithms/noise.ts lines 191-210.
The cosine and sine of the rotation angle are abstracted as cosF and sinF
because Math.cos and Math.sin are irrational in general. -/
def applyDirectionalBias (cosF sinF : ℚ → ℚ) (x y verticalBias horizontalBias angle : ℚ) :
    ℚ × ℚ :=
let c := cosF angle
let s := sinF angle
let rx := x * c - y * s
let ry := x * s + y * c
(rx * (1 + horizontalBias), ry / (1 + verticalBias))

/-- mixNoise from src/src/algorithms/noise.ts lines 220-222. -/
def mixNoise (a b t : ℚ) : ℚ :=
a * (1 - t) + b * t

/-- applyContrast from src/src/algorithms/noise.ts lines 231-235. -/
def applyContrast (value contrast : ℚ) : ℚ :=
max 0 (min 1 ((value - 1/2) * contrast + 1/2))

/-- getCellPoints from src/src/algorithms/voronoi.ts lines 27-41: the jittered
seed point of an integer grid cell, placed with two decorrelated noise samples
keyed by the scaled cell coordinates. -/
def getCellPoints (η : ℕ → ℚ → ℚ → ℚ) (seed : ℕ) (cellX cellY : ℤ) (jitter : ℚ) :
    ℚ × ℚ :=
let noiseX := η seed ((cellX : ℚ) * 100) ((cellY : ℚ) * 100)
let noiseY := η seed ((cellX : ℚ) * 100 + 50) ((cellY : ℚ) * 100 + 50)
((cellX : ℚ) + 1/2 + (noiseX - 1/2) * jitter,
 (cellY : ℚ) + 1/2 + (noiseY - 1/2) * jitter)

/-- The distanceFunctions table of src/src/algorithms/voronoi.ts lines 17-21.
The euclidean entry computes Math.sqrt of the squared distance, which is
irrational in general, so it is abstracted as the parameter euclid; the
manhattan and chebyshev entries are embedded exactly. -/
def distanceFunctions (euclid : ℚ → ℚ → ℚ) : DistanceFunction → ℚ → ℚ → ℚ
  | DistanceFunction.euclidean => euclid
  | DistanceFunction.manhattan => fun dx dy => |dx| + |dy|
  | DistanceFunction.chebyshev => fun dx dy => max |dx| |dy|

/-- The mutable scan state of voronoiNoise: nearest distance f1, second
nearest f2 (none models the JavaScript initial Infinity), and the id of the
winning cell. -/
structure VoroState where
  f1 : Option ℚ
  f2 : Option ℚ
  cellId : ℤ
deriving Repr, DecidableEq

/-- Comparison of a finite distance against a possibly-infinite bound:
everything is less than Infinity. -/
def ltInf (d : ℚ) : Option ℚ → Bool
  | none => true
  | some v => decide (d < v)

/-- One neighbor update of the voronoiNoise scan (voronoi.ts lines 85-92):
a strictly closer point displaces f1 into f2 and records the cell id; a point
strictly closer than f2 only replaces f2. -/
def voroStep (s : VoroState) (entry : ℚ × ℤ) : VoroState :=
if ltInf entry.1 s.f1 then
  { f1 := some entry.1, f2 := s.f1, cellId := entry.2 }
else if ltInf entry.1 s.f2 then
  { s with f2 := some entry.1 }
else s

/-- The 3 by 3 neighborhood offsets scanned by voronoiNoise, in the source
iteration order: offsetY outer from -1 to 1, offsetX inner from -1 to 1. -/
def neighborOffsets : List (ℤ × ℤ) :=
[(-1, -1), (0, -1), (1, -1), (-1, 0), (0, 0), (1, 0), (-1, 1), (0, 1), (1, 1)]

/-- The list of (distance, cell id) entries scanned by voronoiNoise for a
given point: for each neighbor of the containing cell, the distance from the
scaled point to the neighbor jittered seed and the id neighborX * 1000 +
neighborY. -/
def voronoiEntries (η : ℕ → ℚ → ℚ → ℚ) (euclid : ℚ → ℚ → ℚ) (seed : ℕ)
    (x y : ℚ) (params : VoronoiParams) : List (ℚ × ℤ) :=
let scaledX := x * params.cellDensity
let scaledY := y * params.cellDensity
let cellX : ℤ := ⌊scaledX⌋
let cellY : ℤ := ⌊scaledY⌋
let distFn := distanceFunctions euclid params.distanceFunction
neighborOffsets.map fun o =>
  let neighborX := cellX + o.1
  let neighborY := cellY + o.2
  let point := getCellPoints η seed neighborX neighborY params.jitter
  (distFn (scaledX - point.1) (scaledY - point.2), neighborX * 1000 + neighborY)

/-- voronoiNoise from src/src/algorithms/voronoi.ts lines 53-97.  The scan
always visits the 9 neighbors, so f1 and f2 are always finite at the end; the
getD 0 extraction of the impossible Infinity case is proved unreachable below. -/
def voronoiNoise (η : ℕ → ℚ → ℚ → ℚ) (euclid : ℚ → ℚ → ℚ) (seed : ℕ)
    (x y : ℚ) (params : VoronoiParams) : ℚ × ℚ × ℤ :=
let r := (voronoiEntries η euclid seed x y params).foldl voroStep ⟨none, none, 0⟩
(r.f1.getD 0, r.f2.getD 0, r.cellId)

/-- voronoiEdges from src/src/algorithms/voronoi.ts lines 129-147. -/
def voronoiEdges (η : ℕ → ℚ → ℚ → ℚ) (euclid : ℚ → ℚ → ℚ) (seed : ℕ)
    (x y : ℚ) (params : VoronoiParams) : ℚ :=
let r := voronoiNoise η euclid seed x y params
let edgeDist := r.2.1 - r.1
if params.edgeWidth = 0 then
  if edgeDist < 1/100 then 1 else 0
else
  1 - min 1 (edgeDist / params.edgeWidth)

/-- voronoiCellValue from src/src/algorithms/voronoi.ts lines 159-168. -/
def voronoiCellValue (η : ℕ → ℚ → ℚ → ℚ) (euclid : ℚ → ℚ → ℚ) (seed : ℕ)
    (x y : ℚ) (params : VoronoiParams) : ℚ :=
let r := voronoiNoise η euclid seed x y params
η seed ((r.2.2 : ℚ) * (1/10)) ((r.2.2 : ℚ) * (1/5))

/-- voronoiBark from src/src/algorithms/voronoi.ts lines 180-191. -/
def voronoiBark (η : ℕ → ℚ → ℚ → ℚ) (euclid : ℚ → ℚ → ℚ) (seed : ℕ)
    (x y : ℚ) (params : VoronoiParams) : ℚ :=
let cellValue := voronoiCellValue η euclid seed x y params
let edgeValue := voronoiEdges η euclid seed x y params
cellValue * (1 - edgeValue * (4/5))

/-- crackleNoise from src/src/algorithms/voronoi.ts lines 203-212. -/
def crackleNoise (η : ℕ → ℚ → ℚ → ℚ) (euclid : ℚ → ℚ → ℚ) (seed : ℕ)
    (x y : ℚ) (params : VoronoiParams) : ℚ :=
let r := voronoiNoise η euclid seed x y params
min 1 ((r.2.1 - r.1) * 2)

/-- lerpColor from the colorMap part of src/src/main.ts lines 259-282:
saturation and brightness interpolate linearly; for the hue, when the two hues
are more than 180 degrees apart the smaller one is raised by 360 before
interpolating, and the result is reduced modulo 360. -/
def lerpColor (c1 c2 : HSBColor) (t : ℚ) : HSBColor :=
let h1 := c1.1
let h2 := c2.1
let hs : ℚ × ℚ :=
  if |h2 - h1| > 180 then
    if h1 < h2 then (h1 + 360, h2) else (h1, h2 + 360)
  else (h1, h2)
(jsMod (hs.1 + (hs.2 - hs.1) * t) 360,
 c1.2.1 + (c2.2.1 - c1.2.1) * t,
 c1.2.2 + (c2.2.2 - c1.2.2) * t)

/-- mapToColor from the colorMap part of src/src/main.ts lines 293-319:
a two-segment gradient shadow to base to highlight, then an optional hue
shift of (variation - 0.5) * 2 * colorVariation wrapped into the hue circle. -/
def mapToColor (value : ℚ) (palette : ColorPalette) (variation : ℚ) : HSBColor :=
let color :=
  if value < 1/2 then lerpColor palette.shadowColor palette.baseColor (value * 2)
  else lerpColor palette.baseColor palette.highlightColor ((value - 1/2) * 2)
if palette.colorVariation > 0 ∧ variation > 0 then
  (jsMod (color.1 + (variation - 1/2) * 2 * palette.colorVariation + 360) 360,
   color.2.1, color.2.2)
else color

/-- hsbToRgb from the colorMap part of src/src/main.ts lines 346-379: the
standard six-sector HSB to RGB conversion with rounded 0-255 channels. -/
def hsbToRgb (h s b : ℚ) : ℤ × ℤ × ℤ :=
let hn := h / 360
let sn := s / 100
let bn := b / 100
if sn = 0 then (jsRound (bn * 255), jsRound (bn * 255), jsRound (bn * 255))
else
  let i : ℤ := ⌊hn * 6⌋
  let f := hn * 6 - (i : ℚ)
  let pv := bn * (1 - sn)
  let qv := bn * (1 - f * sn)
  let tv := bn * (1 - (1 - f) * sn)
  let rgb : ℚ × ℚ × ℚ :=
    match Int.tmod i 6 with
    | 0 => (bn, tv, pv)
    | 1 => (qv, bn, pv)
    | 2 => (pv, bn, tv)
    | 3 => (pv, qv, bn)
    | 4 => (tv, pv, bn)
    | 5 => (bn, pv, qv)
    | _ => (0, 0, 0)
  (jsRound (rgb.1 * 255), jsRound (rgb.2.1 * 255), jsRound (rgb.2.2 * 255))

/-- getPixelColor from the colorMap part of src/src/main.ts lines 391-400:
map the bark value to HSB, convert to RGB, and append the opaque alpha. -/
def getPixelColor (value : ℚ) (palette : ColorPalette) (variation : ℚ) : List ℤ :=
let hsb := mapToColor value palette variation
let rgb := hsbToRgb hsb.1 hsb.2.1 hsb.2.2
[rgb.1, rgb.2.1, rgb.2.2, 255]

/-- calculateBarkValue of the abstract base class BarkGenerator
(src/src/generators/BarkGenerator.ts lines 107-155): directional bias, domain
warp, fbm base, ridged layer at half the noise scale mixed at ridgeIntensity,
voronoiBark mixed at 0.3, edge darkening, contrast.  The seed argument is the
current state of the shared p5 noise generator. -/
def calculateBarkValue (η : ℕ → ℚ → ℚ → ℚ) (euclid : ℚ → ℚ → ℚ)
    (cosF sinF : ℚ → ℚ) (seed : ℕ) (params : BarkParams) (x y : ℚ) : ℚ :=
let b := applyDirectionalBias cosF sinF x y
  params.direction.verticalBias params.direction.horizontalBias params.direction.angle
let w := domainWarp η seed b.1 b.2 params.warp params.noise
let baseNoise := fbm η seed w.1 w.2 params.noise
let ridged := ridgedNoise η seed w.1 w.2 { params.noise with scale := params.noise.scale * (1/2) }
let voronoi := voronoiBark η euclid seed w.1 w.2 params.voronoi
let edges := voronoiEdges η euclid seed w.1 w.2 params.voronoi
let v1 := mixNoise baseNoise ridged params.ridgeIntensity
let v2 := mixNoise v1 voronoi (3/10)
let v3 := v2 * (1 - edges * (1/2))
applyContrast v3 params.contrast

/-- The global state mutated by p5 noiseSeed: the seed of the shared noise
generator. -/
structure RenderState where
  noiseSeed : ℕ
deriving Repr, DecidableEq

/-- One pixel of the rasterizer loop (BarkGenerator.ts lines 75-91): the bark
value from the composer, an independent small-scale variation sample, and the
four RGBA bytes from getPixelColor.  calcFn abstracts the virtual
this.calculateBarkValue dispatch; it receives the current noise seed and the
pixel coordinates. -/
def renderPixel (η : ℕ → ℚ → ℚ → ℚ) (calcFn : ℕ → ℚ → ℚ → ℚ)
    (colors : ColorPalette) (seed px py : ℕ) : List ℤ :=
let value := calcFn seed (px : ℚ) (py : ℚ)
let variation := η seed ((px : ℚ) * (1/10)) ((py : ℚ) * (1/10))
getPixelColor value colors variation

/-- One row of the rasterizer loop, pixels left to right. -/
def renderRow (η : ℕ → ℚ → ℚ → ℚ) (calcFn : ℕ → ℚ → ℚ → ℚ)
    (colors : ColorPalette) (seed : ℕ) (w : ℕ) (py : ℕ) : List ℤ :=
(List.range w).flatMap fun px => renderPixel η calcFn colors seed px py

/-- BarkGenerator.generate (src/src/generators/BarkGenerator.ts lines 46-96):
re-seed the shared noise generator from params.noise.seed once, then write
every pixel row-major.  The incoming RenderState is the prior state of the
shared generator; it is overwritten by the noiseSeed call before any pixel is
computed, and the new state is returned with the flat RGBA buffer. -/
def generate (η : ℕ → ℚ → ℚ → ℚ) (calcFn : ℕ → ℚ → ℚ → ℚ) (params : BarkParams)
    (w h : ℕ) (_s : RenderState) : List ℤ × RenderState :=
let s1 : RenderState := ⟨params.noise.seed⟩
((List.range h).flatMap (fun py => renderRow η calcFn params.colors s1.noiseSeed w py), s1)

/-- The chunk size of generateAsync (BarkGenerator.ts line 262). -/
def chunkSize : ℕ := 16

/-- The row indices processed by the chunked loop of generateAsync, in order:
each call of processChunk handles rows from currentRow up to
min (currentRow + chunkSize) h, until all rows are done. -/
def chunkRows (current h : ℕ) : List ℕ :=
if hlt : current < h then
  List.range' current (min (current + chunkSize) h - current) ++
    chunkRows (min (current + chunkSize) h) h
else []
termination_by h - current
decreasing_by
  have : current + 1 ≤ min (current + chunkSize) h := by
    simp [chunkSize]
    omega
  omega

/-- BarkGenerator.generateAsync (src/src/generators/BarkGenerator.ts lines
237-304): re-seed once from params.noise.seed, then process rows in chunks of
chunkSize, reporting progress after each chunk; the progress callbacks do not
touch the pixel buffer and are not modelled. -/
def generateAsync (η : ℕ → ℚ → ℚ → ℚ) (calcFn : ℕ → ℚ → ℚ → ℚ)
    (params : BarkParams) (w h : ℕ) (_s : RenderState) : List ℤ × RenderState :=
let s1 : RenderState := ⟨params.noise.seed⟩
((chunkRows 0 h).flatMap (fun py => renderRow η calcFn params.colors s1.noiseSeed w py), s1)

/-- A TypeScript Partial of NoiseParams: absent fields are none. -/
structure NoiseUpdate where
  scale : Option ℚ := none
  octaves : Option ℕ := none
  lacunarity : Option ℚ := none
  persistence : Option ℚ := none
  seed : Option ℕ := none
deriving DecidableEq

/-- A TypeScript Partial of WarpParams. -/
structure WarpUpdate where
  strength : Option ℚ := none
  iterations : Option ℕ := none
  scale : Option ℚ := none
deriving DecidableEq

/-- A TypeScript Partial of VoronoiParams. -/
structure VoronoiUpdate where
  cellDensity : Option ℚ := none
  distanceFunction : Option DistanceFunction := none
  edgeWidth : Option ℚ := none
  jitter : Option ℚ := none
deriving DecidableEq

/-- A TypeScript Partial of DirectionalParams. -/
structure DirectionUpdate where
  verticalBias : Option ℚ := none
  horizontalBias : Option ℚ := none
  angle : Option ℚ := none
deriving DecidableEq

/-- A TypeScript Partial of ColorPalette. -/
structure ColorsUpdate where
  baseColor : Option HSBColor := none
  shadowColor : Option HSBColor := none
  highlightColor : Option HSBColor := none
  colorVariation : Option ℚ := none
deriving DecidableEq

/-- A TypeScript Partial of BarkParams: every top-level field, including the
nested structs, may be absent. -/
structure BarkParamsUpdate where
  species : Option String := none
  noise : Option NoiseUpdate := none
  warp : Option WarpUpdate := none
  voronoi : Option VoronoiUpdate := none
  direction : Option DirectionUpdate := none
  colors : Option ColorsUpdate := none
  ridgeIntensity : Option ℚ := none
  contrast : Option ℚ := none
deriving DecidableEq

/-- The spread merge of one nested noise struct: absent update means the old
struct is kept whole; otherwise each present leaf overrides the old value. -/
def mergeNoise (old : NoiseParams) : Option NoiseUpdate → NoiseParams
  | none => old
  | some u =>
    { scale := u.scale.getD old.scale
      octaves := u.octaves.getD old.octaves
      lacunarity := u.lacunarity.getD old.lacunarity
      persistence := u.persistence.getD old.persistence
      seed := u.seed.getD old.seed }

/-- The spread merge of the warp struct. -/
def mergeWarp (old : WarpParams) : Option WarpUpdate → WarpParams
  | none => old
  | some u =>
    { strength := u.strength.getD old.strength
      iterations := u.iterations.getD old.iterations
      scale := u.scale.getD old.scale }

/-- The spread merge of the voronoi struct. -/
def mergeVoronoi (old : VoronoiParams) : Option VoronoiUpdate → VoronoiParams
  | none => old
  | some u =>
    { cellDensity := u.cellDensity.getD old.cellDensity
      distanceFunction := u.distanceFunction.getD old.distanceFunction
      edgeWidth := u.edgeWidth.getD old.edgeWidth
      jitter := u.jitter.getD old.jitter }

/-- The spread merge of the direction struct. -/
def mergeDirection (old : DirectionalParams) : Option DirectionUpdate → DirectionalParams
  | none => old
  | some u =>
    { verticalBias := u.verticalBias.getD old.verticalBias
      horizontalBias := u.horizontalBias.getD old.horizontalBias
      angle := u.angle.getD old.angle }

/-- The spread merge of the colors struct. -/
def mergeColors (old : ColorPalette) : Option ColorsUpdate → ColorPalette
  | none => old
  | some u =>
    { baseColor := u.baseColor.getD old.baseColor
      shadowColor := u.shadowColor.getD old.shadowColor
      highlightColor := u.highlightColor.getD old.highlightColor
      colorVariation := u.colorVariation.getD old.colorVariation }

/-- BarkGenerator.setParams (src/src/generators/BarkGenerator.ts lines
167-177): top-level scalar fields come from the update when present, and each
nested struct is spread-merged independently. -/
def setParams (old : BarkParams) (u : BarkParamsUpdate) : BarkParams :=
{ species := u.species.getD old.species
  noise := mergeNoise old.noise u.noise
  warp := mergeWarp old.warp u.warp
  voronoi := mergeVoronoi old.voronoi u.voronoi
  direction := mergeDirection old.direction u.direction
  colors := mergeColors old.colors u.colors
  ridgeIntensity := u.ridgeIntensity.getD old.ridgeIntensity
  contrast := u.contrast.getD old.contrast }

/-- OakBark.calculateBarkValue (src/unnamed/part_004 lines 65-116): the oak
override replaces the base skeleton: fbm base, a primary ridged layer at 0.4
times the noise scale mixed at ridgeIntensity, a secondary ridged layer
sampled at 1.5 times the warped coordinates with 0.8 times the noise scale and
3 octaves mixed at 0.3, a fine fbm detail layer sampled at 3 times the warped
coordinates with twice the noise scale and 3 octaves mixed at 0.15, then
contrast.  No voronoi or edge-darkening term appears. -/
def oakCalculateBarkValue (η : ℕ → ℚ → ℚ → ℚ) (cosF sinF : ℚ → ℚ) (seed : ℕ)
    (params : BarkParams) (x y : ℚ) : ℚ :=
let b := applyDirectionalBias cosF sinF x y
  params.direction.verticalBias params.direction.horizontalBias params.direction.angle
let w := domainWarp η seed b.1 b.2 params.warp params.noise
let baseNoise := fbm η seed w.1 w.2 params.noise
let ridged := ridgedNoise η seed w.1 w.2 { params.noise with scale := params.noise.scale * (2/5) }
let ridged2 := ridgedNoise η seed (w.1 * (3/2)) (w.2 * (3/2))
  { params.noise with scale := params.noise.scale * (4/5), octaves := 3 }
let v1 := mixNoise baseNoise ridged params.ridgeIntensity
let v2 := mixNoise v1 ridged2 (3/10)
let detail := fbm η seed (w.1 * 3) (w.2 * 3)
  { params.noise with scale := params.noise.scale * 2, octaves := 3 }
let v3 := mixNoise v2 detail (3/20)
applyContrast v3 params.contrast

/-- The per-pixel formula that claim C5 asserts for the oak composer, written
from the words of the claim: the shared base skeleton of
BarkGenerator.calculateBarkValue (directional bias, domain warp, fbm base,
ridged layer at 0.5 times the noise scale mixed at ridgeIntensity, voronoiBark
mixed at 0.3, edge darkening), extended with a second ridged layer sampled at
1.5 times the coordinates with octaves 3 mixed at weight 0.3 and a fine fbm
detail layer at twice the noise scale mixed at weight 0.15, then contrast. -/
def oakClaimedValue (η : ℕ → ℚ → ℚ → ℚ) (euclid : ℚ → ℚ → ℚ)
    (cosF sinF : ℚ → ℚ) (seed : ℕ) (params : BarkParams) (x y : ℚ) : ℚ :=
let b := applyDirectionalBias cosF sinF x y
  params.direction.verticalBias params.direction.horizontalBias params.direction.angle
let w := domainWarp η seed b.1 b.2 params.warp params.noise
let baseNoise := fbm η seed w.1 w.2 params.noise
let ridged := ridgedNoise η seed w.1 w.2 { params.noise with scale := params.noise.scale * (1/2) }
let voronoi := voronoiBark η euclid seed w.1 w.2 params.voronoi
let edges := voronoiEdges η euclid seed w.1 w.2 params.voronoi
let v1 := mixNoise baseNoise ridged params.ridgeIntensity
let v2 := mixNoise v1 voronoi (3/10)
let v3 := v2 * (1 - edges * (1/2))
let ridged2 := ridgedNoise η seed (w.1 * (3/2)) (w.2 * (3/2))
  { params.noise with octaves := 3 }
let v4 := mixNoise v3 ridged2 (3/10)
let detail := fbm η seed w.1 w.2 { params.noise with scale := params.noise.scale * 2 }
let v5 := mixNoise v4 detail (3/20)
applyContrast v5 params.contrast

/-- The amended description of the oak composer, written from the amended
claim: the oak override replaces the base skeleton entirely; it mixes the fbm
base with a primary ridged layer at 0.4 times the noise scale at weight
ridgeIntensity, then a secondary ridged layer sampled at 1.5 times the warped
coordinates with 0.8 times the noise scale and octaves 3 at weight 0.3, then a
fine fbm detail layer sampled at 3 times the warped coordinates with twice the
noise scale and octaves 3 at weight 0.15, and finishes with contrast; no
voronoi or edge-darkening term appears. -/
def oakAmendedValue (η : ℕ → ℚ → ℚ → ℚ) (cosF sinF : ℚ → ℚ) (seed : ℕ)
    (params : BarkParams) (x y : ℚ) : ℚ :=
let b := applyDirectionalBias cosF sinF x y
  params.direction.verticalBias params.direction.horizontalBias params.direction.angle
let w := domainWarp η seed b.1 b.2 params.warp params.noise
let baseNoise := fbm η seed w.1 w.2 params.noise
let ridged := ridgedNoise η seed w.1 w.2 { params.noise with scale := params.noise.scale * (2/5) }
let ridged2 := ridgedNoise η seed (w.1 * (3/2)) (w.2 * (3/2))
  { params.noise with scale := params.noise.scale * (4/5), octaves := 3 }
let detail := fbm η seed (w.1 * 3) (w.2 * 3)
  { params.noise with scale := params.noise.scale * 2, octaves := 3 }
applyContrast
  (mixNoise (mixNoise (mixNoise baseNoise ridged params.ridgeIntensity) ridged2 (3/10))
    detail (3/20))
  params.contrast

/-- The five ranged feature values of a FeatureVector that the classifier
scores (verticalEnergy, horizontalEnergy, ridgeDensity, plateSize,
colorVariance). -/
structure RangedFeatures where
  verticalEnergy : ℚ
  horizontalEnergy : ℚ
  ridgeDensity : ℚ
  plateSize : ℚ
  colorVariance : ℚ
deriving Repr, DecidableEq

/-- The five inclusive feature ranges of one species entry of
speciesFeatureRanges. -/
structure FeatureRanges where
  verticalEnergy : ℚ × ℚ
  horizontalEnergy : ℚ × ℚ
  ridgeDensity : ℚ × ℚ
  plateSize : ℚ × ℚ
  colorVariance : ℚ × ℚ
deriving Repr, DecidableEq

/-- The per-feature weight of the scoring loop of
SpeciesClassifier.scoreAgainstRanges (src/src/validation/SpeciesClassifier.ts
lines 138-161): a value inside the inclusive range contributes 1; otherwise
the contribution is max 0 (1 - distance / rangeSize) halved, where distance is
the distance to the nearer bound. -/
def featureContrib (value : ℚ) (range : ℚ × ℚ) : ℚ :=
if value ≥ range.1 ∧ value ≤ range.2 then 1
else
  let rangeSize := range.2 - range.1
  let distance := min |value - range.1| |value - range.2|
  max 0 (1 - distance / rangeSize) * (1/2)

/-- SpeciesClassifier.scoreAgainstRanges (SpeciesClassifier.ts lines 130-169)
specialized to the five numeric ranged features: the accumulated weight
divided by the number of ranged features, which is 5. -/
def scoreAgainstRanges (f : RangedFeatures) (r : FeatureRanges) : ℚ :=
(featureContrib f.verticalEnergy r.verticalEnergy +
 featureContrib f.horizontalEnergy r.horizontalEnergy +
 featureContrib f.ridgeDensity r.ridgeDensity +
 featureContrib f.plateSize r.plateSize +
 featureContrib f.colorVariance r.colorVariance) / 5

/-- The pine entry of speciesFeatureRanges (src/src/validation/features.ts
lines 11-26). -/
def pineFeatureRanges : FeatureRanges :=
{ verticalEnergy := (1/2, 17/20)
  horizontalEnergy := (1/10, 2/5)
  ridgeDensity := (3/10, 3/5)
  plateSize := (3/20, 2/5)
  colorVariance := (3/20, 2/5) }

/-- A feature vector with every ranged value at the midpoint of the pine
expected ranges. -/
def pineMidpointFeatures : RangedFeatures :=
{ verticalEnergy := 27/40
  horizontalEnergy := 1/4
  ridgeDensity := 9/20
  plateSize := 11/40
  colorVariance := 11/40 }

/-- A constant noise sampler used to instantiate witnesses. -/
def etaHalf : ℕ → ℚ → ℚ → ℚ := fun _ _ _ => 1/2

/-- A placeholder euclidean distance, unused when the distance function is
manhattan. -/
def euclidZero : ℚ → ℚ → ℚ := fun _ _ => 0

/-- A cosine stand-in valid at angle 0. -/
def cosOne : ℚ → ℚ := fun _ => 1

/-- A sine stand-in valid at angle 0. -/
def sinZero : ℚ → ℚ := fun _ => 0

/-- Voronoi parameters used in witnesses: unit cell density, manhattan
distance, edge width one fifth, no jitter. -/
def witVoronoiParams : VoronoiParams :=
⟨1, DistanceFunction.manhattan, 1/5, 0⟩

/-- Bark parameters used by the oak counterexample: one octave, no rotation,
no ridge intensity, unit contrast, so every layer evaluates to a simple
rational under the constant noise sampler. -/
def oakWitnessParams : BarkParams :=
{ species := "oak"
  noise := ⟨1, 1, 2, 1/2, 0⟩
  warp := ⟨1, 1, 1⟩
  voronoi := witVoronoiParams
  direction := ⟨0, 0, 0⟩
  colors := ⟨(0, 0, 0), (0, 0, 0), (0, 0, 0), 0⟩
  ridgeIntensity := 0
  contrast := 1 }

/-- The amplitude after n octaves is persistence to the n. -/
theorem fractalIter_amplitude (g : ℚ → ℚ) (η : ℕ → ℚ → ℚ → ℚ) (seed : ℕ)
    (x y : ℚ) (p : NoiseParams) (n : ℕ) :
    (fractalIter g η seed x y p n).amplitude = p.persistence ^ n := by
induction n with
| zero => simp [fractalIter, fractalInit]
| succ n ih => simp [fractalIter, fractalStep, ih, pow_succ]

/-- The frequency after n octaves is the scale times lacunarity to the n. -/
theorem fractalIter_frequency (g : ℚ → ℚ) (η : ℕ → ℚ → ℚ → ℚ) (seed : ℕ)
    (x y : ℚ) (p : NoiseParams) (n : ℕ) :
    (fractalIter g η seed x y p n).frequency = p.scale * p.lacunarity ^ n := by
induction n with
| zero => simp [fractalIter, fractalInit]
| succ n ih => simp [fractalIter, fractalStep, ih, pow_succ]; ring

/-- The weight sum maxValue after n octaves is the sum of the per-octave
weights persistence to the i. -/
theorem fractalIter_maxValue (g : ℚ → ℚ) (η : ℕ → ℚ → ℚ → ℚ) (seed : ℕ)
    (x y : ℚ) (p : NoiseParams) (n : ℕ) :
    (fractalIter g η seed x y p n).maxValue =
      ∑ i ∈ Finset.range n, p.persistence ^ i := by
induction n with
| zero => simp [fractalIter, fractalInit]
| succ n ih =>
  simp [fractalIter, fractalStep, ih, Finset.sum_range_succ,
    fractalIter_amplitude]

/-- The accumulated value after n octaves is the weighted sum of transformed
noise samples, octave i sampled at the coordinates scaled by
scale times lacunarity to the i and weighted by persistence to the i. -/
theorem fractalIter_value (g : ℚ → ℚ) (η : ℕ → ℚ → ℚ → ℚ) (seed : ℕ)
    (x y : ℚ) (p : NoiseParams) (n : ℕ) :
    (fractalIter g η seed x y p n).value =
      ∑ i ∈ Finset.range n, p.persistence ^ i *
        g (η seed (x * (p.scale * p.lacunarity ^ i)) (y * (p.scale * p.lacunarity ^ i))) := by
induction n with
| zero => simp [fractalIter, fractalInit]
| succ n ih =>
  simp [fractalIter, fractalStep, ih, Finset.sum_range_succ,
    fractalIter_amplitude, fractalIter_frequency]

/-- The weight sum of at least one octave of positive persistence is
positive. -/
theorem weightSum_pos (p : NoiseParams) (hoct : 1 ≤ p.octaves)
    (hpers : 0 < p.persistence) :
    0 < ∑ i ∈ Finset.range p.octaves, p.persistence ^ i := by
apply Finset.sum_pos
· intro i _
  exact pow_pos hpers i
· exact Finset.nonempty_range_iff.mpr (by omega)

/-- Bounds for the normalized octave loop: when the per-octave transform g
maps the unit interval into itself and the raw sampler stays in the unit
interval, the normalized result stays in the unit interval for any positive
persistence and at least one octave. -/
theorem fractalSum_bounds (g : ℚ → ℚ) (η : ℕ → ℚ → ℚ → ℚ) (seed : ℕ)
    (x y : ℚ) (p : NoiseParams)
    (hg : ∀ v, 0 ≤ v → v ≤ 1 → 0 ≤ g v ∧ g v ≤ 1)
    (hη : ∀ s a b, 0 ≤ η s a b ∧ η s a b ≤ 1)
    (hoct : 1 ≤ p.octaves) (hpers : 0 < p.persistence) :
    0 ≤ fractalSum g η seed x y p ∧ fractalSum g η seed x y p ≤ 1 := by
have hden := weightSum_pos p hoct hpers
have hgb : ∀ s a b, 0 ≤ g (η s a b) ∧ g (η s a b) ≤ 1 := by
  intro s a b
  exact hg _ (hη s a b).1 (hη s a b).2
rw [fractalSum, fractalIter_value, fractalIter_maxValue]
constructor
· apply div_nonneg _ (le_of_lt hden)
  apply Finset.sum_nonneg
  intro i _
  exact mul_nonneg (le_of_lt (pow_pos hpers i)) (hgb _ _ _).1
· rw [div_le_one hden]
  apply Finset.sum_le_sum
  intro i _
  calc p.persistence ^ i * g (η seed (x * (p.scale * p.lacunarity ^ i)) (y * (p.scale * p.lacunarity ^ i)))
      ≤ p.persistence ^ i * 1 := by
        apply mul_le_mul_of_nonneg_left (hgb _ _ _).2 (le_of_lt (pow_pos hpers i))
    _ = p.persistence ^ i := mul_one _

/-- The identity transform of fbm preserves the unit interval. -/
theorem id_transform_bounds (v : ℚ) (h0 : 0 ≤ v) (h1 : v ≤ 1) :
    0 ≤ v ∧ v ≤ 1 := ⟨h0, h1⟩

/-- The centered absolute value stays in the unit interval on the unit
interval. -/
theorem absTent_bounds (v : ℚ) (h0 : 0 ≤ v) (h1 : v ≤ 1) :
    0 ≤ |v * 2 - 1| ∧ |v * 2 - 1| ≤ 1 := by
constructor
· exact abs_nonneg _
· rw [abs_le]
  constructor <;> linarith

/-- The squared inverted tent of ridgedNoise stays in the unit interval on
the unit interval. -/
theorem ridgeTransform_bounds (v : ℚ) (h0 : 0 ≤ v) (h1 : v ≤ 1) :
    0 ≤ ridgeTransform v ∧ ridgeTransform v ≤ 1 := by
have ha := absTent_bounds v h0 h1
have hm0 : 0 ≤ 1 - |v * 2 - 1| := by linarith [ha.2]
have hm1 : 1 - |v * 2 - 1| ≤ 1 := by linarith [ha.1]
rw [ridgeTransform]
constructor
· exact mul_nonneg hm0 hm0
· calc (1 - |v * 2 - 1|) * (1 - |v * 2 - 1|) ≤ 1 * 1 :=
      mul_le_mul hm1 hm1 hm0 (by norm_num)
  _ = 1 := by norm_num

/-- C3: for every octave count in 1..8, every scale and lacunarity, every
positive persistence, every coordinate pair and every underlying coherent
noise sampler with values in the unit interval, fbm, ridgedNoise and
turbulence each return a value in the unit interval, and each equals the
weighted octave sum divided by the sum of the per-octave weights persistence
to the i, not by the octave count. -/
theorem fractal_noise_bounds_and_normalization (η : ℕ → ℚ → ℚ → ℚ)
    (hη : ∀ s a b, 0 ≤ η s a b ∧ η s a b ≤ 1) (p : NoiseParams)
    (hoct1 : 1 ≤ p.octaves) (hoct8 : p.octaves ≤ 8) (hpers : 0 < p.persistence)
    (seed : ℕ) (x y : ℚ) :
    (0 ≤ fbm η seed x y p ∧ fbm η seed x y p ≤ 1) ∧
    (0 ≤ ridgedNoise η seed x y p ∧ ridgedNoise η seed x y p ≤ 1) ∧
    (0 ≤ turbulence η seed x y p ∧ turbulence η seed x y p ≤ 1) ∧
    fbm η seed x y p =
      (∑ i ∈ Finset.range p.octaves, p.persistence ^ i *
          η seed (x * (p.scale * p.lacunarity ^ i)) (y * (p.scale * p.lacunarity ^ i))) /
        ∑ i ∈ Finset.range p.octaves, p.persistence ^ i ∧
    ridgedNoise η seed x y p =
      (∑ i ∈ Finset.range p.octaves, p.persistence ^ i *
          ridgeTransform (η seed (x * (p.scale * p.lacunarity ^ i)) (y * (p.scale * p.lacunarity ^ i)))) /
        ∑ i ∈ Finset.range p.octaves, p.persistence ^ i ∧
    turbulence η seed x y p =
      (∑ i ∈ Finset.range p.octaves, p.persistence ^ i *
          |η seed (x * (p.scale * p.lacunarity ^ i)) (y * (p.scale * p.lacunarity ^ i)) * 2 - 1|) /
        ∑ i ∈ Finset.range p.octaves, p.persistence ^ i := by
refine ⟨?_, ?_, ?_, ?_, ?_, ?_⟩
· exact fractalSum_bounds _ η seed x y p id_transform_bounds hη hoct1 hpers
· exact fractalSum_bounds _ η seed x y p ridgeTransform_bounds hη hoct1 hpers
· exact fractalSum_bounds _ η seed x y p absTent_bounds hη hoct1 hpers
· rw [fbm, fractalSum, fractalIter_value, fractalIter_maxValue]
· rw [ridgedNoise, fractalSum, fractalIter_value, fractalIter_maxValue]
· rw [turbulence, fractalSum, fractalIter_value, fractalIter_maxValue]

/-- Witness for C3 at the constant sampler one half and a two-octave
parameter set. -/
theorem fractal_noise_bounds_witness :
    (∀ s a b, 0 ≤ etaHalf s a b ∧ etaHalf s a b ≤ 1) ∧
    1 ≤ (2 : ℕ) ∧ (2 : ℕ) ≤ 8 ∧ 0 < (1/2 : ℚ) ∧
    (0 ≤ fbm etaHalf 0 0 0 ⟨1, 2, 2, 1/2, 0⟩ ∧ fbm etaHalf 0 0 0 ⟨1, 2, 2, 1/2, 0⟩ ≤ 1) := by
have hη : ∀ s a b, 0 ≤ etaHalf s a b ∧ etaHalf s a b ≤ 1 := by
  intro s a b
  constructor <;> norm_num [etaHalf]
refine ⟨hη, by norm_num, by norm_num, by norm_num, ?_⟩
exact (fractal_noise_bounds_and_normalization etaHalf hη ⟨1, 2, 2, 1/2, 0⟩
  (by norm_num) (by norm_num) (by norm_num) 0 0 0).1

/-- C4 (code bug): fbm performs no validation of the octave count.  With
octaves equal to 0 the loop body never runs, the weight sum maxValue stays 0,
and the function returns the quotient value over maxValue, which is 0 over 0:
in JavaScript this is NaN, a number-typed result, not an InvalidParameter
rejection.  Over the rationals the division-by-zero convention makes the
result 0; the theorem exhibits the zero denominator reached by the code. -/
theorem fbm_octaves_zero_no_rejection (η : ℕ → ℚ → ℚ → ℚ) (seed : ℕ) (x y : ℚ)
    (scale lac pers : ℚ) (sd : ℕ) :
    (fractalIter (fun n => n) η seed x y ⟨scale, 0, lac, pers, sd⟩ 0).maxValue = 0 ∧
    (fractalIter (fun n => n) η seed x y ⟨scale, 0, lac, pers, sd⟩ 0).value = 0 ∧
    fbm η seed x y ⟨scale, 0, lac, pers, sd⟩ = 0 := by
refine ⟨rfl, rfl, ?_⟩
rw [fbm, fractalSum]
norm_num [fractalIter, fractalInit]

/-- C1: for a fixed parameter set and fixed dimensions the rendered buffer
does not depend on the prior state of the shared noise generator, because
generate overwrites that state from params.noise.seed before the pixel loop;
hence two independent calls, in particular two consecutive ones, produce
identical buffers. -/
theorem generate_deterministic (η : ℕ → ℚ → ℚ → ℚ) (calcFn : ℕ → ℚ → ℚ → ℚ)
    (params : BarkParams) (w h : ℕ) (s₁ s₂ : RenderState) :
    (generate η calcFn params w h s₁).1 = (generate η calcFn params w h s₂).1 ∧
    (generate η calcFn params w h ((generate η calcFn params w h s₁).2)).1 =
      (generate η calcFn params w h s₁).1 :=
⟨rfl, rfl⟩

/-- The chunked row schedule of generateAsync visits exactly the rows from
current to the end, in order. -/
theorem chunkRows_eq (current h : ℕ) :
    chunkRows current h = List.range' current (h - current) := by
rw [chunkRows]
split
· next hlt =>
  rw [chunkRows_eq (min (current + chunkSize) h) h]
  have hm : current + 1 ≤ min (current + chunkSize) h := by
    simp [chunkSize]
    omega
  have key := List.range'_append current (min (current + chunkSize) h - current)
    (h - min (current + chunkSize) h) 1
  simp only [one_mul] at key
  rw [show current + (min (current + chunkSize) h - current) = min (current + chunkSize) h by
    omega] at key
  rw [key]
  congr 1
  omega
· next hge =>
  have h0 : h - current = 0 := by omega
  simp [h0]
termination_by h - current
decreasing_by
  have : current + 1 ≤ min (current + chunkSize) h := by
    simp [chunkSize]
    omega
  omega

/-- C2: the chunked progressive render writes exactly the same buffer as the
one-shot render, for every parameter set and every width and height; the
returned generator states agree as well. -/
theorem generateAsync_eq_generate (η : ℕ → ℚ → ℚ → ℚ) (calcFn : ℕ → ℚ → ℚ → ℚ)
    (params : BarkParams) (w h : ℕ) (s : RenderState) :
    generateAsync η calcFn params w h s = generate η calcFn params w h s := by
rw [generateAsync, generate, chunkRows_eq, Nat.sub_zero, ← List.range_eq_range']

/-- The invariant of the voronoiNoise scan state: an infinite f1 forces an
infinite f2, and finite distances satisfy f1 at most f2. -/
def VoroInv (s : VoroState) : Prop :=
(s.f1 = none → s.f2 = none) ∧ ∀ a b, s.f1 = some a → s.f2 = some b → a ≤ b

/-- One scan step preserves the voronoiNoise invariant. -/
theorem voroStep_inv (s : VoroState) (e : ℚ × ℤ) (h : VoroInv s) : VoroInv (voroStep s e) := by
obtain ⟨f1, f2, cid⟩ := s
cases f1 with
| none =>
  cases f2 with
  | none => simp [voroStep, ltInf, VoroInv]
  | some b => exact absurd (h.1 rfl) (by simp)
| some a =>
  cases f2 with
  | none =>
    rw [voroStep]
    rcases lt_or_le e.1 a with hlt | hle
    · rw [if_pos (by simp [ltInf, hlt])]
      refine ⟨by simp, ?_⟩
      intro a' b' ha hb
      simp only [Option.some.injEq] at ha hb
      subst ha; subst hb
      exact le_of_lt hlt
    · rw [if_neg (by simp [ltInf, not_lt.mpr hle]), if_pos (by simp [ltInf])]
      refine ⟨by simp, ?_⟩
      intro a' b' ha hb
      simp only [Option.some.injEq] at ha hb
      subst ha; subst hb
      exact hle
  | some b =>
    have hab : a ≤ b := h.2 a b rfl rfl
    rw [voroStep]
    rcases lt_or_le e.1 a with hlt | hle
    · rw [if_pos (by simp [ltInf, hlt])]
      refine ⟨by simp, ?_⟩
      intro a' b' ha hb
      simp only [Option.some.injEq] at ha hb
      subst ha; subst hb
      exact le_of_lt hlt
    · rw [if_neg (by simp [ltInf, not_lt.mpr hle])]
      rcases lt_or_le e.1 b with hlt2 | hle2
      · rw [if_pos (by simp [ltInf, hlt2])]
        refine ⟨by simp, ?_⟩
        intro a' b' ha hb
        simp only [Option.some.injEq] at ha hb
        subst ha; subst hb
        exact hle
      · rw [if_neg (by simp [ltInf, not_lt.mpr hle2])]
        exact h

/-- Folding scan steps preserves the voronoiNoise invariant. -/
theorem foldl_voroStep_inv (l : List (ℚ × ℤ)) (s : VoroState) (h : VoroInv s) :
    VoroInv (l.foldl voroStep s) := by
induction l generalizing s with
| nil => exact h
| cons e rest ih => exact ih _ (voroStep_inv s e h)

/-- After any scan step the nearest distance is finite. -/
theorem voroStep_f1_isSome (s : VoroState) (e : ℚ × ℤ) : (voroStep s e).f1.isSome := by
rw [voroStep]
cases hf : s.f1 with
| none => rw [if_pos (by simp [ltInf, hf])]; rfl
| some a =>
  split_ifs with h1 h2
  · rfl
  · simp [hf]
  · simp [hf]

/-- A scan step after the nearest distance is finite makes the second
distance finite as well. -/
theorem voroStep_f2_isSome (s : VoroState) (e : ℚ × ℤ) (h : s.f1.isSome) :
    (voroStep s e).f2.isSome := by
rw [voroStep]
obtain ⟨a, ha⟩ := Option.isSome_iff_exists.mp h
split_ifs with h1 h2
· simp [ha]
· rfl
· cases hf2 : s.f2 with
  | none => rw [hf2] at h2; simp [ltInf] at h2
  | some b => simp [hf2]

/-- Folding scan steps keeps both distances finite. -/
theorem foldl_voroStep_isSome (l : List (ℚ × ℤ)) (s : VoroState)
    (h1 : s.f1.isSome) (h2 : s.f2.isSome) :
    ((l.foldl voroStep s).f1.isSome ∧ (l.foldl voroStep s).f2.isSome) := by
induction l generalizing s with
| nil => exact ⟨h1, h2⟩
| cons e rest ih =>
  exact ih _ (voroStep_f1_isSome s e) (voroStep_f2_isSome s e h1)

/-- The nearest distance returned by voronoiNoise never exceeds the second
nearest: the 3 by 3 scan always visits at least two neighbors and the step
function keeps the pair ordered. -/
theorem voronoiNoise_f1_le_f2 (η : ℕ → ℚ → ℚ → ℚ) (euclid : ℚ → ℚ → ℚ) (seed : ℕ)
    (x y : ℚ) (params : VoronoiParams) :
    (voronoiNoise η euclid seed x y params).1 ≤ (voronoiNoise η euclid seed x y params).2.1 := by
obtain ⟨e₁, e₂, rest, hsplit⟩ :
    ∃ e₁ e₂ rest, voronoiEntries η euclid seed x y params = e₁ :: e₂ :: rest := by
  rw [voronoiEntries, neighborOffsets]
  exact ⟨_, _, _, rfl⟩
rw [voronoiNoise, hsplit]
have hs2 : ∀ s : VoroState, s = voroStep (voroStep ⟨none, none, 0⟩ e₁) e₂ →
    s.f1.isSome ∧ s.f2.isSome := by
  intro s hs
  subst hs
  exact ⟨voroStep_f1_isSome _ _, voroStep_f2_isSome _ _ (voroStep_f1_isSome _ _)⟩
have hfold := foldl_voroStep_isSome rest (voroStep (voroStep ⟨none, none, 0⟩ e₁) e₂)
  (hs2 _ rfl).1 (hs2 _ rfl).2
have hinv := foldl_voroStep_inv (e₁ :: e₂ :: rest) ⟨none, none, 0⟩ (by simp [VoroInv])
simp only [List.foldl_cons] at hinv hfold ⊢
obtain ⟨a, ha⟩ := Option.isSome_iff_exists.mp hfold.1
obtain ⟨b, hb⟩ := Option.isSome_iff_exists.mp hfold.2
simp [ha, hb]
exact hinv.2 a b ha hb

/-- C10: for every input point, every parameter set and any underlying noise
sampler, voronoiNoise returns distances with f1 at most f2; consequently
voronoiEdges stays in the unit interval for every nonnegative edge width, and
crackleNoise always stays in the unit interval. -/
theorem voronoi_distance_invariant (η : ℕ → ℚ → ℚ → ℚ) (euclid : ℚ → ℚ → ℚ)
    (seed : ℕ) (x y : ℚ) (params : VoronoiParams) :
    (voronoiNoise η euclid seed x y params).1 ≤ (voronoiNoise η euclid seed x y params).2.1 ∧
    (0 ≤ params.edgeWidth →
      0 ≤ voronoiEdges η euclid seed x y params ∧
      voronoiEdges η euclid seed x y params ≤ 1) ∧
    (0 ≤ crackleNoise η euclid seed x y params ∧
      crackleNoise η euclid seed x y params ≤ 1) := by
have hle := voronoiNoise_f1_le_f2 η euclid seed x y params
refine ⟨hle, ?_, ?_⟩
· intro hew
  simp only [voronoiEdges]
  split_ifs with h0 h1
  · norm_num
  · norm_num
  · have hpos : 0 < params.edgeWidth := lt_of_le_of_ne hew (Ne.symm h0)
    have hq : 0 ≤ ((voronoiNoise η euclid seed x y params).2.1 -
        (voronoiNoise η euclid seed x y params).1) / params.edgeWidth :=
      div_nonneg (by linarith) (le_of_lt hpos)
    constructor
    · have := min_le_left 1 (((voronoiNoise η euclid seed x y params).2.1 -
        (voronoiNoise η euclid seed x y params).1) / params.edgeWidth)
      linarith
    · have := le_min (by norm_num : (0:ℚ) ≤ 1) hq
      linarith
· simp only [crackleNoise]
  constructor
  · exact le_min (by norm_num) (by linarith)
  · exact min_le_left _ _

/-- Witness for C10 at a concrete parameter set with nonnegative edge
width. -/
theorem voronoi_distance_invariant_witness :
    0 ≤ witVoronoiParams.edgeWidth ∧
    0 ≤ voronoiEdges etaHalf euclidZero 0 0 0 witVoronoiParams ∧
    voronoiEdges etaHalf euclidZero 0 0 0 witVoronoiParams ≤ 1 := by
refine ⟨by norm_num [witVoronoiParams], ?_⟩
exact (voronoi_distance_invariant etaHalf euclidZero 0 0 0 witVoronoiParams).2.1
  (by norm_num [witVoronoiParams])

/-- C8: with a positive edge width, voronoiEdges equals one minus the clamped
ratio of the distance gap to the edge width, and in particular equals exactly
1 at a point equidistant from the two nearest seeds; with edge width zero it
is the hard threshold at gap 0.01, so no division by zero occurs. -/
theorem voronoiEdges_matches_spec (η : ℕ → ℚ → ℚ → ℚ) (euclid : ℚ → ℚ → ℚ)
    (seed : ℕ) (x y : ℚ) (params : VoronoiParams) :
    (0 < params.edgeWidth →
      voronoiEdges η euclid seed x y params =
        1 - clamp01 (((voronoiNoise η euclid seed x y params).2.1 -
          (voronoiNoise η euclid seed x y params).1) / params.edgeWidth) ∧
      ((voronoiNoise η euclid seed x y params).1 =
          (voronoiNoise η euclid seed x y params).2.1 →
        voronoiEdges η euclid seed x y params = 1)) ∧
    (params.edgeWidth = 0 →
      voronoiEdges η euclid seed x y params =
        if (voronoiNoise η euclid seed x y params).2.1 -
            (voronoiNoise η euclid seed x y params).1 < 1/100 then 1 else 0) := by
have hle := voronoiNoise_f1_le_f2 η euclid seed x y params
constructor
· intro hew
  have hne : ¬ params.edgeWidth = 0 := ne_of_gt hew
  have hq : 0 ≤ ((voronoiNoise η euclid seed x y params).2.1 -
      (voronoiNoise η euclid seed x y params).1) / params.edgeWidth :=
    div_nonneg (by linarith) (le_of_lt hew)
  have hclamp : clamp01 (((voronoiNoise η euclid seed x y params).2.1 -
      (voronoiNoise η euclid seed x y params).1) / params.edgeWidth) =
      min 1 (((voronoiNoise η euclid seed x y params).2.1 -
        (voronoiNoise η euclid seed x y params).1) / params.edgeWidth) := by
    rw [clamp01]
    exact max_eq_right (le_min (by norm_num) hq)
  constructor
  · simp only [voronoiEdges]
    rw [if_neg hne, hclamp]
  · intro heq
    simp only [voronoiEdges]
    rw [if_neg hne, ← heq]
    norm_num
· intro h0
  simp only [voronoiEdges]
  rw [if_pos h0]

/-- The neighbor scan entries at the origin under the constant sampler with
unit cell density, manhattan distance and no jitter. -/
theorem witness_voronoiEntries : voronoiEntries etaHalf euclidZero 0 0 0 witVoronoiParams =
    [(1, -1001), (1, -1), (2, 999), (1, -1000), (1, 0), (2, 1000), (2, -999), (2, 1), (3, 1001)] := by
rw [voronoiEntries]
norm_num [neighborOffsets, getCellPoints, distanceFunctions, etaHalf, witVoronoiParams,
  abs_of_pos]

/-- The origin of the witness configuration is exactly equidistant from its
two nearest seeds. -/
theorem witness_voronoiNoise : voronoiNoise etaHalf euclidZero 0 0 0 witVoronoiParams =
    (1, 1, -1001) := by
rw [voronoiNoise, witness_voronoiEntries]
decide

/-- Witness for C8: a concrete equidistant point with positive edge width on
which voronoiEdges evaluates to exactly 1. -/
theorem voronoiEdges_matches_spec_witness :
    0 < witVoronoiParams.edgeWidth ∧
    (voronoiNoise etaHalf euclidZero 0 0 0 witVoronoiParams).1 =
      (voronoiNoise etaHalf euclidZero 0 0 0 witVoronoiParams).2.1 ∧
    voronoiEdges etaHalf euclidZero 0 0 0 witVoronoiParams = 1 := by
have hpos : 0 < witVoronoiParams.edgeWidth := by norm_num [witVoronoiParams]
have heq : (voronoiNoise etaHalf euclidZero 0 0 0 witVoronoiParams).1 =
    (voronoiNoise etaHalf euclidZero 0 0 0 witVoronoiParams).2.1 := by
  rw [witness_voronoiNoise]
exact ⟨hpos, heq,
  ((voronoiEdges_matches_spec etaHalf euclidZero 0 0 0 witVoronoiParams).1 hpos).2 heq⟩

/-- Counterexample to C5: at the origin, under the constant noise sampler and
a one-octave oak parameter set with zero ridge intensity and unit contrast,
the oak composer returns 251/400 while the formula claimed by C5 (base
skeleton with voronoi mixing and edge darkening, extended by the two extra
layers) returns 8861/20000.  The oak override never samples the voronoi
fields, its primary ridged layer uses 0.4 rather than 0.5 times the noise
scale, and its detail layer is sampled at 3 times the coordinates. -/
theorem oak_claimed_formula_counterexample :
    oakCalculateBarkValue etaHalf cosOne sinZero 0 oakWitnessParams 0 0 ≠
      oakClaimedValue etaHalf euclidZero cosOne sinZero 0 oakWitnessParams 0 0 := by
have h1 : oakCalculateBarkValue etaHalf cosOne sinZero 0 oakWitnessParams 0 0 = 251/400 := by
  norm_num [oakCalculateBarkValue, applyDirectionalBias, domainWarp, domainWarpIter,
    fbm, ridgedNoise, fractalSum, fractalIter, fractalInit, fractalStep, ridgeTransform,
    mixNoise, applyContrast, etaHalf, cosOne, sinZero, oakWitnessParams, witVoronoiParams]
have h2 : oakClaimedValue etaHalf euclidZero cosOne sinZero 0 oakWitnessParams 0 0 =
    8861/20000 := by
  norm_num [oakClaimedValue, applyDirectionalBias, domainWarp, domainWarpIter,
    fbm, ridgedNoise, fractalSum, fractalIter, fractalInit, fractalStep, ridgeTransform,
    mixNoise, applyContrast, voronoiBark, voronoiCellValue, voronoiEdges, voronoiNoise,
    voronoiEntries, getCellPoints, neighborOffsets, distanceFunctions, voroStep, ltInf,
    etaHalf, euclidZero, cosOne, sinZero, oakWitnessParams, witVoronoiParams, abs_of_pos]
rw [h1, h2]
norm_num

/-- C5 (amended): for every noise sampler, every parameter set and every
point, the oak composer equals the replaced-skeleton formula: fbm base mixed
with a ridged layer at 0.4 times the noise scale at ridgeIntensity, a second
ridged layer at 1.5 times the warped coordinates with 0.8 times the noise
scale and 3 octaves at weight 0.3, a fine fbm detail layer at 3 times the
warped coordinates with twice the noise scale and 3 octaves at weight 0.15,
finished by contrast; no voronoi or edge-darkening term occurs. -/
theorem oak_value_amended (η : ℕ → ℚ → ℚ → ℚ) (cosF sinF : ℚ → ℚ) (seed : ℕ)
    (params : BarkParams) (x y : ℚ) :
    oakCalculateBarkValue η cosF sinF seed params x y =
      oakAmendedValue η cosF sinF seed params x y := rfl

/-- C6: each of the 5 ranged features contributes full weight 1 when its
value lies inclusively within the range, and max 0 (1 - distance over
rangeSize) halved otherwise, with distance the distance to the nearer bound;
the score is the accumulated weight divided by 5; and a feature vector at the
midpoints of the pine ranges scores exactly 1 against pine. -/
theorem scoreAgainstRanges_spec :
    (∀ v mn mx : ℚ, mn ≤ v → v ≤ mx → featureContrib v (mn, mx) = 1) ∧
    (∀ v mn mx : ℚ, v < mn ∨ mx < v →
      featureContrib v (mn, mx) =
        max 0 (1 - min |v - mn| |v - mx| / (mx - mn)) * (1/2)) ∧
    (∀ (f : RangedFeatures) (r : FeatureRanges),
      scoreAgainstRanges f r =
        (featureContrib f.verticalEnergy r.verticalEnergy +
         featureContrib f.horizontalEnergy r.horizontalEnergy +
         featureContrib f.ridgeDensity r.ridgeDensity +
         featureContrib f.plateSize r.plateSize +
         featureContrib f.colorVariance r.colorVariance) / 5) ∧
    scoreAgainstRanges pineMidpointFeatures pineFeatureRanges = 1 := by
refine ⟨?_, ?_, fun f r => rfl, ?_⟩
· intro v mn mx h1 h2
  rw [featureContrib, if_pos ⟨h1, h2⟩]
· intro v mn mx h
  rw [featureContrib, if_neg]
  rcases h with h | h
  · intro hc
    exact absurd hc.1 (not_le.mpr h)
  · intro hc
    exact absurd hc.2 (not_le.mpr h)
· norm_num [scoreAgainstRanges, featureContrib, pineMidpointFeatures, pineFeatureRanges]

/-- Witness for C6: a boundary-inclusive concrete instance of the full-weight
case. -/
theorem scoreAgainstRanges_spec_witness :
    (0 : ℚ) ≤ 0 ∧ (0 : ℚ) ≤ 1 ∧ featureContrib 0 (0, 1) = 1 :=
⟨le_refl 0, by norm_num, scoreAgainstRanges_spec.1 0 0 1 (le_refl 0) (by norm_num)⟩

/-- C7: updating only noise.scale through setParams leaves the noise seed,
every other noise leaf, and every other nested struct and scalar field of the
parameters unchanged. -/
theorem setParams_partial_noise_scale (old : BarkParams) (s : ℚ) :
    (setParams old { noise := some { scale := some s } }).noise.scale = s ∧
    (setParams old { noise := some { scale := some s } }).noise.seed = old.noise.seed ∧
    (setParams old { noise := some { scale := some s } }).noise.octaves = old.noise.octaves ∧
    (setParams old { noise := some { scale := some s } }).noise.lacunarity = old.noise.lacunarity ∧
    (setParams old { noise := some { scale := some s } }).noise.persistence = old.noise.persistence ∧
    (setParams old { noise := some { scale := some s } }).warp = old.warp ∧
    (setParams old { noise := some { scale := some s } }).voronoi = old.voronoi ∧
    (setParams old { noise := some { scale := some s } }).direction = old.direction ∧
    (setParams old { noise := some { scale := some s } }).colors = old.colors ∧
    (setParams old { noise := some { scale := some s } }).ridgeIntensity = old.ridgeIntensity ∧
    (setParams old { noise := some { scale := some s } }).contrast = old.contrast ∧
    (setParams old { noise := some { scale := some s } }).species = old.species :=
⟨rfl, rfl, rfl, rfl, rfl, rfl, rfl, rfl, rfl, rfl, rfl, rfl⟩

/-- Truncation agrees with the floor on nonnegative arguments. -/
theorem jsTrunc_of_nonneg (q : ℚ) (h : 0 ≤ q) : jsTrunc q = ⌊q⌋ := by
rw [jsTrunc, if_neg (not_lt.mpr h)]

/-- The JavaScript remainder by 360 is the identity on the hue circle. -/
theorem jsMod_eq_self (a : ℚ) (h0 : 0 ≤ a) (h1 : a < 360) : jsMod a 360 = a := by
rw [jsMod, jsTrunc_of_nonneg _ (by positivity)]
have hz : ⌊a / 360⌋ = 0 := by
  rw [Int.floor_eq_zero_iff]
  constructor
  · positivity
  · rw [div_lt_one (by norm_num : (0:ℚ) < 360)]
    exact h1
rw [hz]
norm_num

/-- Raising the argument by a full turn does not change the remainder. -/
theorem jsMod_add_360 (a : ℚ) (h0 : 0 ≤ a) : jsMod (a + 360) 360 = jsMod a 360 := by
rw [jsMod, jsMod, jsTrunc_of_nonneg _ (by positivity), jsTrunc_of_nonneg _ (by positivity)]
have hsplit : (a + 360) / 360 = a / 360 + 1 := by
  ring
rw [hsplit, Int.floor_add_one]
push_cast
ring

/-- C9: for hues on the color circle, lerpColor returns exactly the first hue
at t equal to 0 and exactly the second hue at t equal to 1, and the
interpolation from hue 350 to hue 10 at one half lands exactly on 0, taking
the shorter circular arc. -/
theorem lerpColor_hue_spec (c1 c2 : HSBColor) (h10 : 0 ≤ c1.1) (h11 : c1.1 < 360)
    (h20 : 0 ≤ c2.1) (h21 : c2.1 < 360) :
    (lerpColor c1 c2 0).1 = c1.1 ∧ (lerpColor c1 c2 1).1 = c2.1 ∧
    ∀ s b s₂ b₂ : ℚ, (lerpColor (350, s, b) (10, s₂, b₂) (1/2)).1 = 0 := by
refine ⟨?_, ?_, ?_⟩
· simp only [lerpColor]
  split_ifs with habs hlt
  · rw [show c1.1 + 360 + (c2.1 - (c1.1 + 360)) * 0 = c1.1 + 360 by ring,
      jsMod_add_360 _ h10, jsMod_eq_self _ h10 h11]
  · rw [show c1.1 + (c2.1 + 360 - c1.1) * 0 = c1.1 by ring, jsMod_eq_self _ h10 h11]
  · rw [show c1.1 + (c2.1 - c1.1) * 0 = c1.1 by ring, jsMod_eq_self _ h10 h11]
· simp only [lerpColor]
  split_ifs with habs hlt
  · rw [show c1.1 + 360 + (c2.1 - (c1.1 + 360)) * 1 = c2.1 by ring,
      jsMod_eq_self _ h20 h21]
  · rw [show c1.1 + (c2.1 + 360 - c1.1) * 1 = c2.1 + 360 by ring,
      jsMod_add_360 _ h20, jsMod_eq_self _ h20 h21]
  · rw [show c1.1 + (c2.1 - c1.1) * 1 = c2.1 by ring, jsMod_eq_self _ h20 h21]
· intro s b s₂ b₂
  norm_num [lerpColor, jsMod, jsTrunc]

/-- Witness for C9 at the concrete colors with hues 350 and 10. -/
theorem lerpColor_hue_spec_witness :
    (0 : ℚ) ≤ 350 ∧ (350 : ℚ) < 360 ∧ (0 : ℚ) ≤ 10 ∧ (10 : ℚ) < 360 ∧
    (lerpColor ((350 : ℚ), 1, 2) ((10 : ℚ), 3, 4) 0).1 = 350 := by
refine ⟨by norm_num, by norm_num, by norm_num, by norm_num, ?_⟩
exact (lerpColor_hue_spec ((350 : ℚ), 1, 2) ((10 : ℚ), 3, 4)
  (by norm_num) (by norm_num) (by norm_num) (by norm_num)).1

end Trees
